import Mathlib

/-!
Verification of the `ncsu-iaa-2025` teaching notebook (`class-notebook.ipynb`).

The notebook loads a table of test scores, then builds three declarative
PyMC models (a naive no-predictor model, a one-predictor regression, and a
multi-predictor regression) and samples from them.  We embed the data
loading step and the declarative model specifications shallowly: numeric
values become rationals, a pandas table becomes named columns over rows of
optional rationals (a `none` entry is a missing value), and each PyMC model
becomes a list of named prior specifications together with the
deterministic linear predictor feeding the likelihood.
-/

namespace ClassNotebook

/-- A pandas-like table: a list of column names together with rows of
optional rational entries; `none` models a missing value (NaN). -/
structure Table where
  columns : List String
  rows : List (List (Option ℚ))

/-- `df.dropna()`: keep exactly the rows with no missing entry. -/
def dropna (rows : List (List (Option ℚ))) : List (List (Option ℚ)) :=
  rows.filter (fun r => r.all Option.isSome)

/-- `astype(float)` on a row without missing values: coerce each entry to a
number (a `none` never survives `dropna`, so the default is irrelevant). -/
def coerceRow (r : List (Option ℚ)) : List ℚ :=
  r.map (fun o => o.getD 0)

/-- Position of a column name in the header, mirroring the pandas column
lookup performed by `X.pop("score")`. -/
def indexOfCol (name : String) : List String → Option ℕ
  | [] => none
  | c :: cs => if c = name then some 0 else (indexOfCol name cs).map (· + 1)

/-- The notebook's data loading cell:
`X = test_scores.dropna().astype(float); y = X.pop("score")`.
Rows with a missing value are dropped, the remaining values are coerced to
numbers, and the `score` column is split off as the response `y`, leaving
the predictor matrix `X`.  `pop` raises a `KeyError` when the column is
absent; no other validation is performed. -/
def loadData (t : Table) : Except String (List (List ℚ) × List ℚ) :=
  let vals := (dropna t.rows).map coerceRow
  match indexOfCol "score" t.columns with
  | none => .error "KeyError: score"
  | some i => .ok (vals.map (fun r => r.eraseIdx i), vals.map (fun r => r.getD i 0))

/-- A prior distribution specification, as written in the notebook's
`pm.Normal`, `pm.Uniform` and `pm.HalfNormal` declarations. -/
inductive Dist where
  | normalD (mu sigma : ℚ)
  | uniformD (lower upper : ℚ)
  | halfNormalD (sigma : ℚ)
deriving DecidableEq

/-- A free parameter of a model: either a scalar random variable or a
vector random variable whose coordinates are named by `dims` (the PyMC
`dims="predictors"` mechanism), each coordinate drawn independently from
the same prior. -/
inductive ParamSpec where
  | scalar (name : String) (prior : Dist)
  | vector (name : String) (coords : List String) (prior : Dist)
deriving DecidableEq

def ParamSpec.name : ParamSpec → String
  | .scalar n _ => n
  | .vector n _ _ => n

def ParamSpec.prior : ParamSpec → Dist
  | .scalar _ d => d
  | .vector _ _ d => d

def ParamSpec.coordNames : ParamSpec → List String
  | .scalar _ _ => []
  | .vector _ cs _ => cs

/-- Number of scalar degrees of freedom contributed by one parameter. -/
def ParamSpec.card : ParamSpec → ℕ
  | .scalar _ _ => 1
  | .vector _ cs _ => cs.length

/-- Total number of free scalar parameters of a model. -/
def numFreeParams (ps : List ParamSpec) : ℕ :=
  (ps.map ParamSpec.card).sum

/-- Prior of the parameter with a given name, if declared. -/
def lookupPrior (ps : List ParamSpec) (n : String) : Option Dist :=
  (ps.find? (fun p => p.name == n)).map ParamSpec.prior

/-- Coordinate names of the parameter with a given name, if declared. -/
def lookupCoords (ps : List ParamSpec) (n : String) : Option (List String) :=
  (ps.find? (fun p => p.name == n)).map ParamSpec.coordNames

/-- Whether a prior specification has non-negative support. -/
def nonNegSupport : Dist → Bool
  | .normalD _ _ => false
  | .uniformD lo _ => decide (0 ≤ lo)
  | .halfNormalD _ => true

/-- The naive model's free parameters:
`mu = pm.Normal('mu', mu=100, sigma=20)` and
`sigma = pm.Uniform('sigma', lower=0, upper=50)`. -/
def basic_model_params : List ParamSpec :=
  [.scalar "mu" (.normalD 100 20), .scalar "sigma" (.uniformD 0 50)]

/-- The naive model's likelihood location: `score ~ Normal(mu, sigma)`
broadcast against the `n` observed responses, so every row sees the same
location `mu`. -/
def basic_score_mu (mu : ℚ) (n : ℕ) : List ℚ :=
  List.replicate n mu

/-- The simple one-predictor model's free parameters:
`alpha ~ Normal(100, 50)`, `beta ~ Normal(0, 10)`, `sigma ~ HalfNormal(25)`. -/
def simple_model_params : List ParamSpec :=
  [.scalar "alpha" (.normalD 100 50), .scalar "beta" (.normalD 0 10),
   .scalar "sigma" (.halfNormalD 25)]

/-- The simple model's linear predictor:
`mu = alpha + beta * X['siblings'].values`, elementwise over the rows. -/
def simple_mu (alpha beta : ℚ) (siblings : List ℚ) : List ℚ :=
  siblings.map (fun x => alpha + beta * x)

/-- The multi-predictor model's free parameters, built with
`coords = ("predictors": X.columns.values)`:
`alpha ~ Normal(100, 50)`, `beta ~ Normal(0, 10, dims="predictors")`,
`sigma ~ Uniform(0, 20)`. -/
def multi_model_params (predictorCols : List String) : List ParamSpec :=
  [.scalar "alpha" (.normalD 100 50),
   .vector "beta" predictorCols (.normalD 0 10),
   .scalar "sigma" (.uniformD 0 20)]

/-- The scale prior the multi-model markdown cell documents:
`sigma ~ HalfNormal(25)`. -/
def multi_model_doc_sigma : Dist := .halfNormalD 25

/-- Dot product of two numeric lists (trailing surplus in either argument
contributes nothing; callers guard lengths). -/
def dotProduct : List ℚ → List ℚ → ℚ
  | x :: xs, y :: ys => x * y + dotProduct xs ys
  | _, _ => 0

/-- `pt.dot(X.values, beta)` for an N×D matrix and a slope vector: a shape
mismatch between the row length and the slope-vector length is an error
(`none`); otherwise the rowwise dot products. -/
def ptDot (Xv : List (List ℚ)) (bs : List ℚ) : Option (List ℚ) :=
  if Xv.all (fun r => r.length == bs.length) then
    some (Xv.map (fun r => dotProduct r bs))
  else
    none

/-- The multi-predictor model's linear predictor,
`alpha + pt.dot(X.values, beta)`: defined exactly when the slope vector
matches the matrix width. -/
def multi_score_mu (alpha : ℚ) (bs : List ℚ) (Xv : List (List ℚ)) :
    Option (List ℚ) :=
  (ptDot Xv bs).map (fun l => l.map (fun s => alpha + s))

/-- Modelled from the spec: `pm.sample_prior_predictive(samples=500)` is
implemented by the external sampling engine, not by this repository.  Per
the spec it draws the requested number of independent response simulations
purely from the priors, with no conditioning data; we model the engine's
stream of prior draws as a function of the draw index. -/
def sample_prior_predictive (draw : ℕ → List ℚ) (samples : ℕ) :
    List (List ℚ) :=
  (List.range samples).map draw

/-! ### Helper lemmas -/

theorem indexOfCol_eq_none (name : String) (l : List String) :
    indexOfCol name l = none ↔ name ∉ l := by
  induction l with
  | nil => simp [indexOfCol]
  | cons c cs ih =>
    by_cases hc : c = name
    · subst hc; simp [indexOfCol]
    · simp [indexOfCol, hc, Option.map_eq_none', ih, Ne.symm hc]

/-! ### Claims -/

/-- C1: the data loader drops every row containing a missing value, coerces
the rest to numbers, and splits off the response; whenever it succeeds the
predictor matrix row count, the response vector length and the
post-filtering row count all coincide, and no surviving row contains a
missing value. -/
theorem loadData_shape_counts (t : Table) (X : List (List ℚ)) (y : List ℚ)
    (h : loadData t = .ok (X, y)) :
    X.length = y.length ∧ y.length = (dropna t.rows).length ∧
      ∀ r ∈ dropna t.rows, r.all Option.isSome = true := by
  rw [loadData] at h
  cases hidx : indexOfCol "score" t.columns with
  | none => rw [hidx] at h; exact absurd h (by simp)
  | some i =>
    rw [hidx] at h
    have hX : X = ((dropna t.rows).map coerceRow).map (fun r => r.eraseIdx i) := by
      have := congrArg (fun e => match e with | Except.ok p => p.1 | _ => []) h
      simpa using this.symm
    have hy : y = ((dropna t.rows).map coerceRow).map (fun r => r.getD i 0) := by
      have := congrArg (fun e => match e with | Except.ok p => p.2 | _ => []) h
      simpa using this.symm
    refine ⟨?_, ?_, ?_⟩
    · rw [hX, hy]; simp
    · rw [hy]; simp
    · intro r hr
      exact (List.mem_filter.mp hr).2

/-- C3: in every model variant the scale parameter's prior has non-negative
support, and the documented bounds hold exactly: the naive model's `sigma`
is uniform on [0, 50] and the simple model's `sigma` is half-normal with
scale 25 (the multi model's uniform-[0, 20] `sigma` also has non-negative
support). -/
theorem scale_prior_bounds :
    lookupPrior basic_model_params "sigma" = some (.uniformD 0 50)
    ∧ lookupPrior simple_model_params "sigma" = some (.halfNormalD 25)
    ∧ (∀ cols, lookupPrior (multi_model_params cols) "sigma"
        = some (.uniformD 0 20))
    ∧ nonNegSupport (.uniformD 0 50) = true
    ∧ nonNegSupport (.halfNormalD 25) = true
    ∧ nonNegSupport (.uniformD 0 20) = true :=
  ⟨rfl, rfl, fun _ => rfl, by decide, rfl, by decide⟩

/-- C4: both regression variants give the intercept a Normal(100, 50)
prior, the naive model's location parameter a Normal(100, 20) prior, and
every slope parameter (the simple model's scalar slope, and each
coordinate of the multi model's slope vector) an independent Normal(0, 10)
prior. -/
theorem intercept_slope_prior_bounds :
    lookupPrior basic_model_params "mu" = some (.normalD 100 20)
    ∧ lookupPrior simple_model_params "alpha" = some (.normalD 100 50)
    ∧ (∀ cols, lookupPrior (multi_model_params cols) "alpha"
        = some (.normalD 100 50))
    ∧ lookupPrior simple_model_params "beta" = some (.normalD 0 10)
    ∧ (∀ cols, lookupPrior (multi_model_params cols) "beta"
        = some (.normalD 0 10)) :=
  ⟨rfl, rfl, fun _ => rfl, rfl, fun _ => rfl⟩

/-- C7: the naive model has exactly two free parameters (location `mu` and
scale `sigma`), and its likelihood location is the same value `mu` at
every row of the dataset. -/
theorem naive_two_params_constant (mu : ℚ) (n : ℕ) :
    numFreeParams basic_model_params = 2
    ∧ (basic_score_mu mu n).length = n
    ∧ ∀ v ∈ basic_score_mu mu n, v = mu := by
  refine ⟨rfl, by simp [basic_score_mu], ?_⟩
  intro v hv
  exact List.eq_of_mem_replicate hv

theorem naive_two_params_constant_wit :
    numFreeParams basic_model_params = 2
    ∧ (basic_score_mu 7 3).length = 3
    ∧ ∀ v ∈ basic_score_mu 7 3, v = 7 :=
  naive_two_params_constant 7 3

/-- C8: prior-predictive simulation with a requested count of 500 and no
conditioning data yields exactly 500 simulated response draws, one per
index of the engine's prior draw stream. -/
theorem prior_predictive_count (draw : ℕ → List ℚ) :
    (sample_prior_predictive draw 500).length = 500 := by
  simp [sample_prior_predictive]

theorem prior_predictive_count_wit :
    (sample_prior_predictive (fun k => [(k : ℚ)]) 500).length = 500 :=
  prior_predictive_count (fun k => [(k : ℚ)])

/-- C9: the multi model's scale prior is uniform on [0, 20], which differs
from the naive model's uniform-[0, 50] scale prior, from the simple
model's half-normal-25 scale prior, and from the half-normal-25 scale
stated in the notebook's own mathematical description of the multi
model. -/
theorem multi_sigma_prior_discrepancy :
    (∀ cols, lookupPrior (multi_model_params cols) "sigma"
        = some (.uniformD 0 20))
    ∧ lookupPrior basic_model_params "sigma" = some (.uniformD 0 50)
    ∧ lookupPrior simple_model_params "sigma" = some (.halfNormalD 25)
    ∧ multi_model_doc_sigma = .halfNormalD 25
    ∧ Dist.uniformD 0 20 ≠ Dist.uniformD 0 50
    ∧ Dist.uniformD 0 20 ≠ Dist.halfNormalD 25
    ∧ Dist.uniformD 0 20 ≠ multi_model_doc_sigma :=
  ⟨fun _ => rfl, rfl, rfl, rfl, by decide, by decide, by decide⟩

/-- A concrete two-column table: one complete row and one row with a
missing value. -/
def exTable : Table :=
  { columns := ["siblings", "score"],
    rows := [[some 3, some 5], [some 1, none]] }

theorem loadData_shape_counts_wit :
    ([[(3 : ℚ)]] : List (List ℚ)).length = ([(5 : ℚ)] : List ℚ).length
    ∧ ([(5 : ℚ)] : List ℚ).length = (dropna exTable.rows).length
    ∧ ∀ r ∈ dropna exTable.rows, r.all Option.isSome = true :=
  loadData_shape_counts exTable [[3]] [5] rfl

/-- C2: the simple model's linear predictor evaluates per row to
intercept plus slope times the predictor value, hence equals the bare
intercept on an all-zero predictor column; the multi model's linear
predictor evaluates per row to intercept plus the dot product of the slope
vector with the predictor row, reducing to the bare intercept when there
are no predictor columns. -/
theorem linear_predictor_rows (alpha beta : ℚ) (siblings : List ℚ)
    (Xv : List (List ℚ)) (bs : List ℚ) (n : ℕ) :
    (∀ i, (simple_mu alpha beta siblings).get? i
        = (siblings.get? i).map (fun x => alpha + beta * x))
    ∧ ((∀ x ∈ siblings, x = 0) →
        ∀ v ∈ simple_mu alpha beta siblings, v = alpha)
    ∧ ((∀ r ∈ Xv, r.length = bs.length) →
        multi_score_mu alpha bs Xv
          = some (Xv.map (fun r => alpha + dotProduct r bs)))
    ∧ multi_score_mu alpha [] (List.replicate n [])
        = some (List.replicate n alpha) := by
  refine ⟨?_, ?_, ?_, ?_⟩
  · intro i
    simp [simple_mu]
  · intro hz v hv
    simp only [simple_mu, List.mem_map] at hv
    obtain ⟨x, hx, rfl⟩ := hv
    rw [hz x hx, mul_zero, add_zero]
  · intro hrect
    have hall : Xv.all (fun r => r.length == bs.length) = true := by
      rw [List.all_eq_true]
      intro r hr
      simp [hrect r hr]
    simp [multi_score_mu, ptDot, hall, Function.comp]
  · have hall : (List.replicate n ([] : List ℚ)).all
        (fun r => r.length == ([] : List ℚ).length) = true := by
      rw [List.all_eq_true]
      intro r hr
      rw [List.eq_of_mem_replicate hr]
      rfl
    simp [multi_score_mu, ptDot, hall, dotProduct]

theorem linear_predictor_rows_wit :
    (simple_mu 5 3 [0, 0]).get? 0 = some 5
    ∧ (∀ v ∈ simple_mu 5 3 [0, 0], v = 5)
    ∧ multi_score_mu 5 [2, 2] [[1, 1]] = some [9]
    ∧ multi_score_mu 5 [] (List.replicate 2 []) = some [5, 5] := by
  have h := linear_predictor_rows (5 : ℚ) 3 [0, 0] [[1, 1]] [2, 2] 2
  refine ⟨?_, h.2.1 (by simp), ?_, ?_⟩
  · rw [h.1 0]; simp
  · rw [h.2.2.1 (by simp)]; simp [dotProduct]; norm_num
  · rw [h.2.2.2]; rfl

/-- A table whose every row contains a missing value: after `dropna`
nothing remains. -/
def allMissingTable : Table :=
  { columns := ["score", "siblings"], rows := [[some 1, none]] }

/-- C5 counterexample: when missing-value removal leaves zero rows, the
loader raises no "empty dataset after filtering" error; it succeeds and
returns an empty predictor matrix and an empty response vector. -/
theorem loadData_no_empty_check_cex :
    dropna allMissingTable.rows = []
    ∧ loadData allMissingTable = .ok ([], []) :=
  ⟨rfl, rfl⟩

/-- C5 (amended): the loader fails with a KeyError naming `score` whenever
the response column is absent; but when missing-value removal leaves zero
rows it performs no check and returns an empty matrix and vector without
error. -/
theorem loadData_failure_modes (t : Table) :
    ("score" ∉ t.columns → loadData t = .error "KeyError: score")
    ∧ ("score" ∈ t.columns → dropna t.rows = [] →
        loadData t = .ok ([], [])) := by
  constructor
  · intro h
    have hn : indexOfCol "score" t.columns = none :=
      (indexOfCol_eq_none _ _).mpr h
    simp [loadData, hn]
  · intro hmem hempty
    have hne : indexOfCol "score" t.columns ≠ none := fun hn =>
      ((indexOfCol_eq_none _ _).mp hn) hmem
    obtain ⟨i, hi⟩ := Option.ne_none_iff_exists'.mp hne
    simp [loadData, hi, hempty]

/-- A table without the `score` column. -/
def noScoreTable : Table := { columns := ["siblings"], rows := [[some 1]] }

theorem loadData_failure_modes_wit :
    loadData noScoreTable = .error "KeyError: score"
    ∧ loadData allMissingTable = .ok ([], []) :=
  ⟨(loadData_failure_modes noScoreTable).1 (by decide),
   (loadData_failure_modes allMissingTable).2 (by decide) rfl⟩

/-- C6: on a predictor matrix with D columns, the multi model's linear
predictor is defined exactly when the slope-vector length equals D; any
other slope length makes `pt.dot` fail with a shape mismatch. -/
theorem multi_slope_dim_mismatch (alpha : ℚ) (bs : List ℚ)
    (Xv : List (List ℚ)) (D : ℕ) (hne : Xv ≠ [])
    (hrect : ∀ r ∈ Xv, r.length = D) :
    (multi_score_mu alpha bs Xv).isSome = true ↔ bs.length = D := by
  obtain ⟨r0, hr0⟩ := List.exists_mem_of_ne_nil Xv hne
  have hXall : Xv.all (fun r => r.length == bs.length) = true
      ↔ bs.length = D := by
    rw [List.all_eq_true]
    constructor
    · intro h
      have h1 : r0.length = bs.length := by simpa using h r0 hr0
      rw [← h1, hrect r0 hr0]
    · intro h r hr
      simp [hrect r hr, h]
  by_cases hall : Xv.all (fun r => r.length == bs.length) = true
  · rw [multi_score_mu, ptDot, if_pos hall]
    simpa using hXall.mp hall
  · rw [multi_score_mu, ptDot, if_neg hall]
    simpa using fun heq => hall (hXall.mpr heq)

theorem multi_slope_dim_mismatch_wit :
    ((multi_score_mu 0 [1, 1, 1, 1] [[1, 2, 3, 4, 5]]).isSome = true
      ↔ ([1, 1, 1, 1] : List ℚ).length = 5)
    ∧ (multi_score_mu 0 [1, 1, 1, 1] [[1, 2, 3, 4, 5]]).isSome = false := by
  have h := multi_slope_dim_mismatch 0 [1, 1, 1, 1] [[1, 2, 3, 4, 5]] 5
    (by decide) (by decide)
  exact ⟨h, by decide⟩

/-- C10: the multi model declares its slope vector with coordinates bound
to the predictor matrix's own column names, so the slope names align
positionally with the columns and the slope length equals D by
construction; for any rectangular predictor matrix over those columns and
any slope vector of the constructed length, the linear predictor is
defined (no dimension-mismatch state is reachable). -/
theorem multi_coords_no_mismatch (cols : List String) (alpha : ℚ)
    (bs : List ℚ) (Xv : List (List ℚ))
    (hrect : ∀ r ∈ Xv, r.length = cols.length)
    (hbs : bs.length = cols.length) :
    lookupCoords (multi_model_params cols) "beta" = some cols
    ∧ (multi_score_mu alpha bs Xv).isSome = true := by
  refine ⟨rfl, ?_⟩
  have hall : Xv.all (fun r => r.length == bs.length) = true := by
    rw [List.all_eq_true]
    intro r hr
    simp [hrect r hr, hbs]
  simp [multi_score_mu, ptDot, hall]

theorem multi_coords_no_mismatch_wit :
    lookupCoords (multi_model_params ["a", "b"]) "beta" = some ["a", "b"]
    ∧ (multi_score_mu 1 [2, 3] [[4, 5], [6, 7]]).isSome = true := by
  have h := multi_coords_no_mismatch ["a", "b"] 1 [2, 3] [[4, 5], [6, 7]]
    (by decide) (by decide)
  exact ⟨h.1, h.2⟩

end ClassNotebook
